import Mathlib

/-!
PhxPaxos TCP transport: `src/communicate/tcp/tcp.cpp`.

A shallow embedding of `TcpRead`, `TcpWrite` and `TcpIOThread`.

The file under study orchestrates collaborators whose code lives elsewhere
(`EventLoop`, `TcpAcceptor`, `TcpClient`, `Thread`, the C library's `signal`).
Every call made on such a collaborator is recorded, in program order, in a
trace of `Event`s; whatever a collaborator hands back is supplied by an
environment `Env` that may look at the whole history so far.  The member
functions of `tcp.cpp` become functions on the engine object and the `World`.

Not modelled: the thread bodies `TcpRead::run` and `TcpWrite::run` (they run
concurrently inside the collaborators), the destructors, and the `PLHead` log
lines, which touch neither the engine nor any collaborator recorded here.
-/

namespace phxpaxos

/-! ## Collaborators and the world -/

/-- Identity of an object that owns a thread and/or an event loop.  Workers are
heap objects created by `new`; `id` is their allocation number. -/
inductive Obj where
  | acceptor
  | tcpRead (id : Nat)
  | tcpWrite (id : Nat)
  deriving DecidableEq, Repr

/-- One call made by `tcp.cpp` on a collaborator, with what it handed back. -/
inductive Event where
  /-- Call `signal(signum, SIG_IGN)`; `ok` is `result != SIG_ERR`. -/
  | signal (signum : Nat) (ok : Bool)
  /-- Call `TcpAcceptor::AddEventLoop(loop)`. -/
  | addEventLoop (loop : Obj)
  /-- Call `TcpAcceptor::Listen(ip, port)`; `status` is what the bind/listen step
  reports (0 for success). -/
  | listen (ip : String) (port : Int) (status : Int)
  /-- Call `EventLoop::Init(cap)` on the loop owned by `loop`, returning `ret`. -/
  | loopInit (loop : Obj) (cap : Nat) (ret : Int)
  /-- Call `Thread::start()` on the thread of `t`. -/
  | threadStart (t : Obj)
  /-- Call `TcpAcceptor::Stop()`. -/
  | acceptorStop
  /-- Call `EventLoop::Stop()` on the loop owned by `loop`. -/
  | loopStop (loop : Obj)
  /-- Call `Thread::join()` on the thread of `t`. -/
  | join (t : Obj)
  /-- Call `TcpClient::AddMessage(ip, port, msg)` on the client of writer `writer`,
  returning `ret`. -/
  | clientAddMessage (writer : Nat) (ip : String) (port : Int) (msg : String) (ret : Int)
  deriving DecidableEq, Repr

/-- What the collaborators answer.  Each answer may depend on the history. -/
structure Env where
  /-- Whether the translation unit is compiled with `NDEBUG` (then `assert(e)`
  expands to nothing and `e` is not evaluated). -/
  NDEBUG : Bool
  /-- Whether `signal(signum, SIG_IGN)` succeeds (does not return `SIG_ERR`). -/
  signalOk : List Event → Nat → Bool
  /-- Return value of `EventLoop::Init(cap)`. -/
  eventLoopInit : List Event → Obj → Nat → Int
  /-- Outcome of the acceptor's bind/listen step (0 for success). -/
  listenStatus : List Event → String → Int → Int
  /-- Return value of `TcpClient::AddMessage(ip, port, msg)` of a writer. -/
  tcpClientAddMessage : List Event → Nat → String → Int → String → Int

/-- Process-wide state seen by the engine. -/
structure World where
  /-- Calls made on collaborators so far, oldest first. -/
  trace : List Event
  /-- Allocation counter of `new`. -/
  nextId : Nat
  /-- Signals whose disposition is `SIG_IGN`. -/
  ignored : Nat → Bool

/-- Record one collaborator call. -/
def World.emit (w : World) (e : Event) : World :=
  { w with trace := w.trace ++ [e] }

/-- Signal number of the broken-pipe signal (Linux). -/
def SIGPIPE : Nat := 13

/-- Signal number of the alarm signal (Linux). -/
def SIGALRM : Nat := 14

/-- Signal number of the child-reap signal (Linux). -/
def SIGCHLD : Nat := 17

/-- The C library call `signal(signum, SIG_IGN)`: on success the disposition of
`signum` becomes "ignore".  Returns whether the result differs from `SIG_ERR`. -/
def signalIgn (env : Env) (signum : Nat) (w : World) : Bool × World :=
  let ok := env.signalOk w.trace signum
  (ok, { trace := w.trace ++ [Event.signal signum ok]
         nextId := w.nextId
         ignored := if ok then (fun s => if s = signum then true else w.ignored s)
                    else w.ignored })

/-- The statement `assert(signal(signum, SIG_IGN) != SIG_ERR);`.  With `NDEBUG`
the operand is not evaluated; otherwise a false operand aborts (`none`). -/
def assertSignalIgn (env : Env) (signum : Nat) (w : World) : Option World :=
  if env.NDEBUG then some w
  else
    match signalIgn env signum w with
    | (true, w1) => some w1
    | (false, _) => none

/-! ## `TcpRead` -/

/-- A `TcpRead` object: a thread plus its `m_oEventLoop`. -/
structure TcpRead where
  id : Nat
  deriving DecidableEq, Repr

/-- Method `TcpRead::Init`: `return m_oEventLoop.Init(20480);`. -/
def TcpRead.Init (env : Env) (self : TcpRead) (w : World) : Int × World :=
  let ret := env.eventLoopInit w.trace (Obj.tcpRead self.id) 20480
  (ret, w.emit (Event.loopInit (Obj.tcpRead self.id) 20480 ret))

/-- Method `TcpRead::Stop`: `m_oEventLoop.Stop(); join();` (the log line is not modelled). -/
def TcpRead.Stop (self : TcpRead) (w : World) : World :=
  (w.emit (Event.loopStop (Obj.tcpRead self.id))).emit (Event.join (Obj.tcpRead self.id))

/-- Method `TcpRead::GetEventLoop`: `return &m_oEventLoop;`. -/
def TcpRead.GetEventLoop (self : TcpRead) : Obj := Obj.tcpRead self.id

/-- Modelled from the spec: `Thread::start()`, inherited by `TcpRead` and
declared outside this file, starts the worker's thread; it is recorded as one
collaborator call. -/
def TcpRead.start (self : TcpRead) (w : World) : World :=
  w.emit (Event.threadStart (Obj.tcpRead self.id))

/-! ## `TcpWrite` -/

/-- A `TcpWrite` object: a thread, its `m_oEventLoop` and its `m_oTcpClient`
(wired to each other by the constructor). -/
structure TcpWrite where
  id : Nat
  deriving DecidableEq, Repr

/-- Method `TcpWrite::Init`: `return m_oEventLoop.Init(20480);`. -/
def TcpWrite.Init (env : Env) (self : TcpWrite) (w : World) : Int × World :=
  let ret := env.eventLoopInit w.trace (Obj.tcpWrite self.id) 20480
  (ret, w.emit (Event.loopInit (Obj.tcpWrite self.id) 20480 ret))

/-- Method `TcpWrite::Stop`: `m_oEventLoop.Stop(); join();` (the log line is not modelled). -/
def TcpWrite.Stop (self : TcpWrite) (w : World) : World :=
  (w.emit (Event.loopStop (Obj.tcpWrite self.id))).emit (Event.join (Obj.tcpWrite self.id))

/-- Method `TcpWrite::AddMessage`: `return m_oTcpClient.AddMessage(sIP, iPort, sMessage);`. -/
def TcpWrite.AddMessage (env : Env) (self : TcpWrite) (w : World)
    (sIP : String) (iPort : Int) (sMessage : String) : Int × World :=
  let ret := env.tcpClientAddMessage w.trace self.id sIP iPort sMessage
  (ret, w.emit (Event.clientAddMessage self.id sIP iPort sMessage ret))

/-- Modelled from the spec: `Thread::start()`, inherited by `TcpWrite` and
declared outside this file, starts the worker's thread; it is recorded as one
collaborator call. -/
def TcpWrite.start (self : TcpWrite) (w : World) : World :=
  w.emit (Event.threadStart (Obj.tcpWrite self.id))

/-! ## `TcpAcceptor` (declared outside this file) -/

/-- The acceptor as far as `tcp.cpp` uses it: the event loops registered so far. -/
structure TcpAcceptor where
  m_vecEventLoop : List Obj
  deriving DecidableEq, Repr

/-- Modelled from the spec: `TcpAcceptor::AddEventLoop` is not in this file; it
"registers one read-role EventLoop as a candidate target" (the caller's comment
says the loop is added to the vector `m_vecEventLoop`). -/
def TcpAcceptor.AddEventLoop (self : TcpAcceptor) (w : World) (loop : Obj) :
    TcpAcceptor × World :=
  ({ m_vecEventLoop := self.m_vecEventLoop ++ [loop] }, w.emit (Event.addEventLoop loop))

/-- Modelled from the spec: `TcpAcceptor::Listen` is not in this file; it "binds
and listens" and fails on a bind or listen error.  The outcome is returned as a
status (0 for success) and recorded in the trace. -/
def TcpAcceptor.Listen (env : Env) (w : World) (ip : String) (port : Int) : Int × World :=
  let status := env.listenStatus w.trace ip port
  (status, w.emit (Event.listen ip port status))

/-! ## `TcpIOThread` -/

/-- The data members of `TcpIOThread`. -/
structure TcpIOThread where
  m_poNetWork : Nat
  m_oTcpAcceptor : TcpAcceptor
  m_vecTcpRead : List TcpRead
  m_vecTcpWrite : List TcpWrite
  m_bIsStarted : Bool
  deriving DecidableEq, Repr

/-- The constructor `TcpIOThread::TcpIOThread(NetWork *)` (a definition cannot
carry the name of its own structure, hence `new`): clears the started
flag, then the three `assert(signal(..., SIG_IGN) != SIG_ERR)` statements in
source order.  `none` is an abort by a failed assertion. -/
def TcpIOThread.new (env : Env) (poNetWork : Nat) (w : World) :
    Option (TcpIOThread × World) :=
  match assertSignalIgn env SIGPIPE w with
  | none => none
  | some w1 =>
    match assertSignalIgn env SIGALRM w1 with
    | none => none
    | some w2 =>
      match assertSignalIgn env SIGCHLD w2 with
      | none => none
      | some w3 =>
        some ({ m_poNetWork := poNetWork
                m_oTcpAcceptor := { m_vecEventLoop := [] }
                m_vecTcpRead := []
                m_vecTcpWrite := []
                m_bIsStarted := false }, w3)

/-- Method `TcpIOThread::Stop`: when the started flag is set, stop the acceptor,
then every reader, then every writer; no data member is assigned (the closing
log line is written in both branches and is not modelled). -/
def TcpIOThread.Stop (self : TcpIOThread) (w : World) : TcpIOThread × World :=
  if self.m_bIsStarted then
    let w1 := w.emit Event.acceptorStop
    let w2 := self.m_vecTcpRead.foldl (fun acc poTcpRead => TcpRead.Stop poTcpRead acc) w1
    let w3 := self.m_vecTcpWrite.foldl (fun acc poTcpWrite => TcpWrite.Stop poTcpWrite acc) w2
    (self, w3)
  else
    (self, w)

/-- The first loop of `TcpIOThread::Init`, run `n` times: allocate a `TcpRead`,
push it, register its event loop with the acceptor, allocate a `TcpWrite`,
push it.  (`new` does not return null, so the two pointer assertions hold.) -/
def TcpIOThread.Init.createWorkers : Nat → TcpIOThread → World → TcpIOThread × World
  | 0, self, w => (self, w)
  | n + 1, self, w =>
    let poTcpRead : TcpRead := { id := w.nextId }
    let wa : World := { w with nextId := w.nextId + 1 }
    let s1 : TcpIOThread := { self with m_vecTcpRead := self.m_vecTcpRead ++ [poTcpRead] }
    let (acc, wb) := s1.m_oTcpAcceptor.AddEventLoop wa poTcpRead.GetEventLoop
    let s2 : TcpIOThread := { s1 with m_oTcpAcceptor := acc }
    let poTcpWrite : TcpWrite := { id := wb.nextId }
    let wc : World := { wb with nextId := wb.nextId + 1 }
    let s3 : TcpIOThread := { s2 with m_vecTcpWrite := s2.m_vecTcpWrite ++ [poTcpWrite] }
    TcpIOThread.Init.createWorkers n s3 wc

/-- The loop `for (auto & poTcpRead : m_vecTcpRead)` of `TcpIOThread::Init`:
`some ret` is the early `return ret`, `none` is falling out of the loop. -/
def TcpIOThread.Init.initReads (env : Env) : List TcpRead → World → Option Int × World
  | [], w => (none, w)
  | poTcpRead :: rest, w =>
    let (ret, w1) := poTcpRead.Init env w
    if ret ≠ 0 then (some ret, w1) else TcpIOThread.Init.initReads env rest w1

/-- The loop `for (auto & poTcpWrite : m_vecTcpWrite)` of `TcpIOThread::Init`. -/
def TcpIOThread.Init.initWrites (env : Env) : List TcpWrite → World → Option Int × World
  | [], w => (none, w)
  | poTcpWrite :: rest, w =>
    let (ret, w1) := poTcpWrite.Init env w
    if ret ≠ 0 then (some ret, w1) else TcpIOThread.Init.initWrites env rest w1

/-- Method `TcpIOThread::Init(sListenIp, iListenPort, iIOThreadCount)`.  The counting
loop runs `max(iIOThreadCount, 0)` times; `Listen` is an expression statement,
so what it reports is dropped. -/
def TcpIOThread.Init (env : Env) (self : TcpIOThread) (w : World)
    (sListenIp : String) (iListenPort : Int) (iIOThreadCount : Int) :
    Int × TcpIOThread × World :=
  let (s1, w1) := TcpIOThread.Init.createWorkers iIOThreadCount.toNat self w
  let (_, w2) := TcpAcceptor.Listen env w1 sListenIp iListenPort
  match TcpIOThread.Init.initReads env s1.m_vecTcpRead w2 with
  | (some ret, w3) => (ret, s1, w3)
  | (none, w3) =>
    match TcpIOThread.Init.initWrites env s1.m_vecTcpWrite w3 with
    | (some ret, w4) => (ret, s1, w4)
    | (none, w4) => (0, s1, w4)

/-- Method `TcpIOThread::Start`: start the acceptor thread, every writer, every
reader, then set the started flag. -/
def TcpIOThread.Start (self : TcpIOThread) (w : World) : TcpIOThread × World :=
  let w1 := w.emit (Event.threadStart Obj.acceptor)
  let w2 := self.m_vecTcpWrite.foldl (fun acc poTcpWrite => TcpWrite.start poTcpWrite acc) w1
  let w3 := self.m_vecTcpRead.foldl (fun acc poTcpRead => TcpRead.start poTcpRead acc) w2
  ({ self with m_bIsStarted := true }, w3)

/-- The conversion `(int)m_vecTcpWrite.size()` of a `size_t` to a 32-bit `int`. -/
def castInt (n : Nat) : Int :=
  if n % 2 ^ 32 < 2 ^ 31 then ((n % 2 ^ 32 : Nat) : Int) else ((n % 2 ^ 32 : Nat) : Int) - 2 ^ 32

/-- The C++ operator `%` on `int`: remainder of the division truncated towards
zero; undefined (`none`) for a zero divisor and for `INT_MIN % -1`. -/
def cRem (a b : Int) : Option Int :=
  if b = 0 then none
  else if a = -(2 ^ 31) ∧ b = -1 then none
  else some (Int.tmod a b)

/-- Line 192: `int iIndex = iGroupIdx % (int)m_vecTcpWrite.size();`. -/
def TcpIOThread.AddMessage.iIndex (self : TcpIOThread) (iGroupIdx : Int) : Option Int :=
  cRem iGroupIdx (castInt self.m_vecTcpWrite.length)

/-- Method `TcpIOThread::AddMessage`: `m_vecTcpWrite[iIndex]->AddMessage(...)`.  `none`
is undefined behaviour: an undefined remainder, or an index outside the vector
(a negative `int` converts to an enormous `size_t`). -/
def TcpIOThread.AddMessage (env : Env) (self : TcpIOThread) (w : World) (iGroupIdx : Int)
    (sIP : String) (iPort : Int) (sMessage : String) : Option (Int × TcpIOThread × World) :=
  match TcpIOThread.AddMessage.iIndex self iGroupIdx with
  | none => none
  | some iIndex =>
    if iIndex < 0 then none
    else
      match self.m_vecTcpWrite[iIndex.toNat]? with
      | none => none
      | some poTcpWrite =>
        let (ret, w1) := poTcpWrite.AddMessage env w sIP iPort sMessage
        some (ret, self, w1)

/-! ## Vocabulary of the statements -/

/-- The thread/loop identity of a writer. -/
def TcpWrite.obj (self : TcpWrite) : Obj := Obj.tcpWrite self.id

/-- The two collaborator calls of a worker's `Stop`. -/
def stopCalls (o : Obj) : List Event := [Event.loopStop o, Event.join o]

/-- The collaborator call of a worker's `Init` that returned `ret`. -/
def initCall (o : Obj) (ret : Int) : Event := Event.loopInit o 20480 ret

/-- The order in which `TcpIOThread::Init` visits the workers of an engine:
all readers in index order, then all writers in index order. -/
def initOrder (self : TcpIOThread) : List Obj :=
  self.m_vecTcpRead.map TcpRead.GetEventLoop ++ self.m_vecTcpWrite.map TcpWrite.obj

/-- The readers allocated by `n` rounds of the first loop of `Init` when the
allocation counter starts at `base`. -/
def newReads (base n : Nat) : List TcpRead :=
  (List.range n).map (fun i => { id := base + 2 * i })

/-- The writers allocated by `n` rounds of the first loop of `Init` when the
allocation counter starts at `base`. -/
def newWrites (base n : Nat) : List TcpWrite :=
  (List.range n).map (fun i => { id := base + 2 * i + 1 })

/-- An `Init` loop over event-loop owners, the common shape of the reader loop
and the writer loop (used to reason about both at once). -/
def initObjs (env : Env) : List Obj → World → Option Int × World
  | [], w => (none, w)
  | o :: rest, w =>
    let ret := env.eventLoopInit w.trace o 20480
    if ret ≠ 0 then (some ret, w.emit (initCall o ret))
    else initObjs env rest (w.emit (initCall o ret))

/-- Construct `n` engines one after the other in the same process. -/
def constructEngines (env : Env) : Nat → World → Option (List TcpIOThread × World)
  | 0, w => some ([], w)
  | n + 1, w =>
    match TcpIOThread.new env n w with
    | none => none
    | some (e, w1) =>
      match constructEngines env n w1 with
      | none => none
      | some (es, w2) => some (e :: es, w2)

/-- The engine after `n` rounds of the first loop of `Init` started with
allocation counter `base`: the new workers are appended, nothing else changes. -/
def withNewWorkers (self : TcpIOThread) (base n : Nat) : TcpIOThread :=
  { m_poNetWork := self.m_poNetWork
    m_oTcpAcceptor :=
      { m_vecEventLoop := self.m_oTcpAcceptor.m_vecEventLoop
          ++ (newReads base n).map TcpRead.GetEventLoop }
    m_vecTcpRead := self.m_vecTcpRead ++ newReads base n
    m_vecTcpWrite := self.m_vecTcpWrite ++ newWrites base n
    m_bIsStarted := self.m_bIsStarted }

/-- The results of a run of worker `Init` calls over `len` workers that ended
with the value `ret` returned by `TcpIOThread::Init`: all zero when `ret = 0`,
otherwise zeros followed by the first non-zero code. -/
def WorkerResults (len : Nat) (ret : Int) (rets : List Int) : Prop :=
  (ret = 0 ∧ rets = List.replicate len 0) ∨
  (ret ≠ 0 ∧ ∃ k, k < len ∧ rets = List.replicate k 0 ++ [ret])

/-- The three collaborator calls made by one construction of a `TcpIOThread`
when assertions are compiled in and every `signal` call succeeds. -/
def sigCalls : List Event :=
  [Event.signal SIGPIPE true, Event.signal SIGALRM true, Event.signal SIGCHLD true]

/-! ## Concrete environments and engines -/

/-- A world in which nothing has happened yet. -/
def world0 : World := { trace := [], nextId := 0, ignored := fun _ => false }

/-- An environment in which every collaborator succeeds; a writer's client
answers `100 + id`. -/
def envOk : Env :=
  { NDEBUG := false
    signalOk := fun _ _ => true
    eventLoopInit := fun _ _ _ => 0
    listenStatus := fun _ _ _ => 0
    tcpClientAddMessage := fun _ id _ _ _ => 100 + (id : Int) }

/-- As `envOk`, but the event loop of the writer with allocation number 1
fails to initialise with code `-7`. -/
def envWriteFails : Env :=
  { NDEBUG := false
    signalOk := fun _ _ => true
    eventLoopInit := fun _ o _ => if o = Obj.tcpWrite 1 then -7 else 0
    listenStatus := fun _ _ _ => 0
    tcpClientAddMessage := fun _ id _ _ _ => 100 + (id : Int) }

/-- A freshly constructed engine (what the constructor leaves behind). -/
def engine0 : TcpIOThread :=
  { m_poNetWork := 0
    m_oTcpAcceptor := { m_vecEventLoop := [] }
    m_vecTcpRead := []
    m_vecTcpWrite := []
    m_bIsStarted := false }

/-- An engine with four readers and four writers, as `Init(_, _, 4)` on a fresh
engine builds it from allocation number 0. -/
def engine4 : TcpIOThread :=
  { m_poNetWork := 0
    m_oTcpAcceptor := { m_vecEventLoop := (newReads 0 4).map TcpRead.GetEventLoop }
    m_vecTcpRead := newReads 0 4
    m_vecTcpWrite := newWrites 0 4
    m_bIsStarted := false }

/-- An engine with one reader and one writer on which `Start` has been called. -/
def engine1Started : TcpIOThread :=
  { m_poNetWork := 0
    m_oTcpAcceptor := { m_vecEventLoop := [Obj.tcpRead 0] }
    m_vecTcpRead := [{ id := 0 }]
    m_vecTcpWrite := [{ id := 1 }]
    m_bIsStarted := true }

/-- The world right after one engine has been constructed in `world0` with
assertions compiled in and every `signal` call succeeding. -/
def world1 : World :=
  { trace := sigCalls
    nextId := 0
    ignored := fun s =>
      if s = SIGCHLD then true else if s = SIGALRM then true
      else if s = SIGPIPE then true else false }

/-- The engine and world reached by constructing an engine in `world0`, then
`Init("0.0.0.0", 5000, 1)`, then `Start()`, every collaborator succeeding. -/
def startedRun : Option (TcpIOThread × World) :=
  match TcpIOThread.new envOk 0 world0 with
  | none => none
  | some (e, w) =>
    let r := TcpIOThread.Init envOk e w "0.0.0.0" 5000 1
    some (TcpIOThread.Start r.2.1 r.2.2)

/-! ## Arithmetic of the index computation -/

theorem castInt_of_lt {n : Nat} (h : n < 2 ^ 31) : castInt n = (n : Int) := by
  have h1 : n % 2 ^ 32 = n := Nat.mod_eq_of_lt (by omega)
  unfold castInt
  rw [h1, if_pos h]

theorem iIndex_of_nonneg (self : TcpIOThread) (g : Int) (hg : 0 ≤ g)
    (h1 : 1 ≤ self.m_vecTcpWrite.length) (h2 : self.m_vecTcpWrite.length < 2 ^ 31) :
    TcpIOThread.AddMessage.iIndex self g = some (g % (self.m_vecTcpWrite.length : Int)) := by
  have hpos : (0 : Int) < (self.m_vecTcpWrite.length : Int) := by omega
  unfold TcpIOThread.AddMessage.iIndex cRem
  rw [castInt_of_lt h2, if_neg (by omega), if_neg (by omega), Int.tmod_eq_emod hg (by omega)]

theorem iIndex_of_neg (self : TcpIOThread) (g : Int)
    (h1 : 1 ≤ self.m_vecTcpWrite.length) (h2 : self.m_vecTcpWrite.length < 2 ^ 31) :
    TcpIOThread.AddMessage.iIndex self g = some (Int.tmod g (self.m_vecTcpWrite.length : Int)) := by
  unfold TcpIOThread.AddMessage.iIndex cRem
  rw [castInt_of_lt h2, if_neg (by omega), if_neg (by omega)]

theorem tmod_nonpos_of_nonpos {a : Int} (b : Int) (ha : a ≤ 0) : Int.tmod a b ≤ 0 := by
  cases a with
  | ofNat n =>
    have hn : (n : Int) ≤ 0 := ha
    have h0 : n = 0 := by omega
    subst h0
    simp
  | negSucc n =>
    cases b with
    | ofNat m =>
      show -((((n + 1) % m : Nat) : Int)) ≤ 0
      omega
    | negSucc m =>
      show -((((n + 1) % (m + 1) : Nat) : Int)) ≤ 0
      omega

/-! ## The loops of `Start` and `Stop` -/

theorem World.emit_trace (w : World) (e : Event) : (w.emit e).trace = w.trace ++ [e] := rfl

theorem foldl_TcpRead_Stop (rs : List TcpRead) (w : World) :
    rs.foldl (fun acc poTcpRead => TcpRead.Stop poTcpRead acc) w
      = { w with trace := w.trace ++ (rs.map TcpRead.GetEventLoop).flatMap stopCalls } := by
  induction rs generalizing w with
  | nil => simp
  | cons r rs ih =>
    rw [List.foldl_cons, ih]
    simp [TcpRead.Stop, World.emit, stopCalls, TcpRead.GetEventLoop]

theorem foldl_TcpWrite_Stop (ws : List TcpWrite) (w : World) :
    ws.foldl (fun acc poTcpWrite => TcpWrite.Stop poTcpWrite acc) w
      = { w with trace := w.trace ++ (ws.map TcpWrite.obj).flatMap stopCalls } := by
  induction ws generalizing w with
  | nil => simp
  | cons x ws ih =>
    rw [List.foldl_cons, ih]
    simp [TcpWrite.Stop, World.emit, stopCalls, TcpWrite.obj]

theorem foldl_TcpRead_start (rs : List TcpRead) (w : World) :
    rs.foldl (fun acc poTcpRead => TcpRead.start poTcpRead acc) w
      = { w with trace := w.trace ++ (rs.map TcpRead.GetEventLoop).map Event.threadStart } := by
  induction rs generalizing w with
  | nil => simp
  | cons r rs ih =>
    rw [List.foldl_cons, ih]
    simp [TcpRead.start, World.emit, TcpRead.GetEventLoop]

theorem foldl_TcpWrite_start (ws : List TcpWrite) (w : World) :
    ws.foldl (fun acc poTcpWrite => TcpWrite.start poTcpWrite acc) w
      = { w with trace := w.trace ++ (ws.map TcpWrite.obj).map Event.threadStart } := by
  induction ws generalizing w with
  | nil => simp
  | cons x ws ih =>
    rw [List.foldl_cons, ih]
    simp [TcpWrite.start, World.emit, TcpWrite.obj]

theorem Stop_started (self : TcpIOThread) (w : World) (h : self.m_bIsStarted = true) :
    TcpIOThread.Stop self w
      = (self, { w with trace := w.trace ++ [Event.acceptorStop]
                          ++ (self.m_vecTcpRead.map TcpRead.GetEventLoop).flatMap stopCalls
                          ++ (self.m_vecTcpWrite.map TcpWrite.obj).flatMap stopCalls }) := by
  unfold TcpIOThread.Stop
  rw [if_pos h]
  simp only [foldl_TcpRead_Stop, foldl_TcpWrite_Stop, World.emit]

theorem Stop_not_started (self : TcpIOThread) (w : World) (h : self.m_bIsStarted = false) :
    TcpIOThread.Stop self w = (self, w) := by
  unfold TcpIOThread.Stop
  rw [h]
  rfl

theorem Start_eq (self : TcpIOThread) (w : World) :
    TcpIOThread.Start self w
      = ({ self with m_bIsStarted := true },
         { w with trace := w.trace ++ [Event.threadStart Obj.acceptor]
                    ++ (self.m_vecTcpWrite.map TcpWrite.obj).map Event.threadStart
                    ++ (self.m_vecTcpRead.map TcpRead.GetEventLoop).map Event.threadStart }) := by
  unfold TcpIOThread.Start
  simp only [foldl_TcpRead_start, foldl_TcpWrite_start, World.emit]

/-! ## The loops of `Init` -/

theorem newReads_succ (base n : Nat) :
    newReads base (n + 1) = { id := base } :: newReads (base + 2) n := by
  unfold newReads
  rw [List.range_succ_eq_map]
  simp only [List.map_cons, List.map_map]
  congr 1
  apply List.map_congr_left
  intro i _
  simp only [Function.comp, Nat.succ_eq_add_one]
  congr 1
  omega

theorem newWrites_succ (base n : Nat) :
    newWrites base (n + 1) = { id := base + 1 } :: newWrites (base + 2) n := by
  unfold newWrites
  rw [List.range_succ_eq_map]
  simp only [List.map_cons, List.map_map]
  congr 1
  apply List.map_congr_left
  intro i _
  simp only [Function.comp, Nat.succ_eq_add_one]
  congr 1
  omega

theorem newReads_length (base n : Nat) : (newReads base n).length = n := by
  simp [newReads]

theorem newWrites_length (base n : Nat) : (newWrites base n).length = n := by
  simp [newWrites]

theorem createWorkers_eq (n : Nat) (self : TcpIOThread) (w : World) :
    TcpIOThread.Init.createWorkers n self w
      = ({ m_poNetWork := self.m_poNetWork
           m_oTcpAcceptor :=
             { m_vecEventLoop := self.m_oTcpAcceptor.m_vecEventLoop
                 ++ (newReads w.nextId n).map TcpRead.GetEventLoop }
           m_vecTcpRead := self.m_vecTcpRead ++ newReads w.nextId n
           m_vecTcpWrite := self.m_vecTcpWrite ++ newWrites w.nextId n
           m_bIsStarted := self.m_bIsStarted },
         { trace := w.trace
             ++ ((newReads w.nextId n).map TcpRead.GetEventLoop).map Event.addEventLoop
           nextId := w.nextId + 2 * n
           ignored := w.ignored }) := by
  induction n generalizing self w with
  | zero => simp [TcpIOThread.Init.createWorkers, newReads, newWrites]
  | succ n ih =>
    rw [TcpIOThread.Init.createWorkers]
    simp only [TcpAcceptor.AddEventLoop, World.emit]
    rw [ih, newReads_succ, newWrites_succ]
    simp only [List.map_cons, List.append_assoc, List.singleton_append, Prod.mk.injEq]
    refine ⟨trivial, ?_⟩
    have h1 : w.nextId + 1 + 1 = w.nextId + 2 := rfl
    rw [h1]
    congr 1
    omega

theorem initReads_eq_initObjs (env : Env) (rs : List TcpRead) (w : World) :
    TcpIOThread.Init.initReads env rs w = initObjs env (rs.map TcpRead.GetEventLoop) w := by
  induction rs generalizing w with
  | nil => rfl
  | cons r rs ih =>
    simp only [TcpIOThread.Init.initReads, TcpRead.Init, List.map_cons, initObjs, initCall,
      TcpRead.GetEventLoop, ih]

theorem initWrites_eq_initObjs (env : Env) (ws : List TcpWrite) (w : World) :
    TcpIOThread.Init.initWrites env ws w = initObjs env (ws.map TcpWrite.obj) w := by
  induction ws generalizing w with
  | nil => rfl
  | cons x ws ih =>
    simp only [TcpIOThread.Init.initWrites, TcpWrite.Init, List.map_cons, initObjs, initCall,
      TcpWrite.obj, ih]

theorem initObjs_cons_zero (env : Env) (o : Obj) (os : List Obj) (w : World)
    (h : env.eventLoopInit w.trace o 20480 = 0) :
    initObjs env (o :: os) w = initObjs env os (w.emit (initCall o 0)) := by
  simp only [initObjs, h, ne_eq, not_true_eq_false, if_false]

theorem initObjs_cons_ne (env : Env) (o : Obj) (os : List Obj) (w : World)
    (h : env.eventLoopInit w.trace o 20480 ≠ 0) :
    initObjs env (o :: os) w
      = (some (env.eventLoopInit w.trace o 20480),
         w.emit (initCall o (env.eventLoopInit w.trace o 20480))) := by
  simp only [initObjs, ne_eq, h, not_false_eq_true, if_true]

theorem initObjs_spec (env : Env) (os : List Obj) (w : World) :
    ∃ rets : List Int,
      (initObjs env os w).2 = { w with trace := w.trace ++ List.zipWith initCall os rets } ∧
      (((initObjs env os w).1 = none ∧ rets = List.replicate os.length 0) ∨
       (∃ c k, (initObjs env os w).1 = some c ∧ c ≠ 0 ∧ k < os.length ∧
          rets = List.replicate k 0 ++ [c])) := by
  induction os generalizing w with
  | nil => exact ⟨[], by simp [initObjs], Or.inl ⟨rfl, rfl⟩⟩
  | cons o os ih =>
    by_cases h : env.eventLoopInit w.trace o 20480 = 0
    · obtain ⟨rets, htr, hcase⟩ := ih (w.emit (initCall o 0))
      rw [initObjs_cons_zero env o os w h]
      refine ⟨0 :: rets, ?_, ?_⟩
      · rw [htr]
        simp only [World.emit, List.zipWith_cons_cons, List.append_assoc, List.singleton_append]
      · rcases hcase with ⟨h1, h2⟩ | ⟨c, k, h1, h2, h3, h4⟩
        · exact Or.inl ⟨h1, by simp [h2, List.replicate_succ]⟩
        · exact Or.inr ⟨c, k + 1, h1, h2, by simpa using h3,
            by simp [h4, List.replicate_succ]⟩
    · rw [initObjs_cons_ne env o os w h]
      refine ⟨[env.eventLoopInit w.trace o 20480], ?_, ?_⟩
      · simp only [World.emit]
        cases os <;> rfl
      · exact Or.inr ⟨env.eventLoopInit w.trace o 20480, 0, rfl, h, by simp, by simp⟩

theorem zipWith_append_short {α β γ : Type} (f : α → β → γ) (l la : List α) (l' : List β)
    (h : l'.length ≤ l.length) : List.zipWith f (l ++ la) l' = List.zipWith f l l' := by
  induction l generalizing l' with
  | nil =>
    have : l' = [] := List.eq_nil_of_length_eq_zero (by simpa using h)
    subst this
    simp
  | cons a l ih =>
    cases l' with
    | nil => simp
    | cons b l' =>
      simp only [List.cons_append, List.zipWith_cons_cons, List.cons.injEq, true_and]
      exact ih l' (by simpa using h)

theorem initBoth_spec (env : Env) (A B : List Obj) (w2 : World) :
    ∃ (ret : Int) (rets : List Int),
      (match initObjs env A w2 with
        | (some ret, w3) => (ret, w3)
        | (none, w3) =>
          match initObjs env B w3 with
          | (some ret, w4) => (ret, w4)
          | (none, w4) => ((0 : Int), w4))
        = (ret, { w2 with trace := w2.trace ++ List.zipWith initCall (A ++ B) rets }) ∧
      WorkerResults (A ++ B).length ret rets := by
  obtain ⟨rets1, htr1, hcase1⟩ := initObjs_spec env A w2
  rcases hA : initObjs env A w2 with ⟨r1, w3⟩
  rw [hA] at htr1 hcase1
  simp only at htr1 hcase1
  rcases hcase1 with ⟨h1, h2⟩ | ⟨c, k, h1, h2, h3, h4⟩
  · subst h1
    obtain ⟨rets2, htr2, hcase2⟩ := initObjs_spec env B w3
    rcases hB : initObjs env B w3 with ⟨r2, w4⟩
    rw [hB] at htr2 hcase2
    simp only at htr2 hcase2
    have hz : List.zipWith initCall (A ++ B) (rets1 ++ rets2)
        = List.zipWith initCall A rets1 ++ List.zipWith initCall B rets2 :=
      List.zipWith_append initCall A B rets1 rets2 (by rw [h2, List.length_replicate])
    have hw4 : w4 =
        { w2 with trace := w2.trace ++ List.zipWith initCall (A ++ B) (rets1 ++ rets2) } := by
      rw [htr2, htr1, hz]
      simp only [List.append_assoc]
    rcases hcase2 with ⟨g1, g2⟩ | ⟨c, k, g1, g2, g3, g4⟩
    · subst g1
      refine ⟨0, rets1 ++ rets2, ?_, Or.inl ⟨rfl, ?_⟩⟩
      · simp only [hB, hw4]
      · rw [h2, g2, List.length_append, List.replicate_add]
    · subst g1
      refine ⟨c, rets1 ++ rets2, ?_, Or.inr ⟨g2, A.length + k, ?_, ?_⟩⟩
      · simp only [hB, hw4]
      · simp only [List.length_append]; omega
      · rw [h2, g4, List.replicate_add, List.append_assoc]
  · subst h1
    refine ⟨c, rets1, ?_, Or.inr ⟨h2, k, ?_, h4⟩⟩
    · simp only [htr1]
      rw [zipWith_append_short initCall A B rets1
        (by rw [h4, List.length_append, List.length_replicate]; exact h3)]
    · simp only [List.length_append]; omega

theorem Init_eq_run (env : Env) (self : TcpIOThread) (w : World)
    (sListenIp : String) (iListenPort : Int) (iIOThreadCount : Int) :
    TcpIOThread.Init env self w sListenIp iListenPort iIOThreadCount
      = ((match initObjs env
            ((TcpIOThread.Init.createWorkers iIOThreadCount.toNat self w).1.m_vecTcpRead.map
              TcpRead.GetEventLoop)
            (TcpAcceptor.Listen env (TcpIOThread.Init.createWorkers iIOThreadCount.toNat self w).2
              sListenIp iListenPort).2 with
          | (some ret, w3) => (ret, w3)
          | (none, w3) =>
            match initObjs env
              ((TcpIOThread.Init.createWorkers iIOThreadCount.toNat self w).1.m_vecTcpWrite.map
                TcpWrite.obj) w3 with
            | (some ret, w4) => (ret, w4)
            | (none, w4) => ((0 : Int), w4)).1,
         (TcpIOThread.Init.createWorkers iIOThreadCount.toNat self w).1,
         (match initObjs env
            ((TcpIOThread.Init.createWorkers iIOThreadCount.toNat self w).1.m_vecTcpRead.map
              TcpRead.GetEventLoop)
            (TcpAcceptor.Listen env (TcpIOThread.Init.createWorkers iIOThreadCount.toNat self w).2
              sListenIp iListenPort).2 with
          | (some ret, w3) => (ret, w3)
          | (none, w3) =>
            match initObjs env
              ((TcpIOThread.Init.createWorkers iIOThreadCount.toNat self w).1.m_vecTcpWrite.map
                TcpWrite.obj) w3 with
            | (some ret, w4) => (ret, w4)
            | (none, w4) => ((0 : Int), w4)).2) := by
  unfold TcpIOThread.Init
  simp only [initReads_eq_initObjs, initWrites_eq_initObjs]
  split
  · rfl
  · split <;> rfl

theorem Init_spec (env : Env) (self : TcpIOThread) (w : World)
    (sListenIp : String) (iListenPort : Int) (iIOThreadCount : Int) :
    ∃ (ret : Int) (rets : List Int),
      TcpIOThread.Init env self w sListenIp iListenPort iIOThreadCount
        = (ret, withNewWorkers self w.nextId iIOThreadCount.toNat,
           { trace := w.trace
               ++ ((newReads w.nextId iIOThreadCount.toNat).map TcpRead.GetEventLoop).map
                    Event.addEventLoop
               ++ [Event.listen sListenIp iListenPort
                    (env.listenStatus
                      (w.trace ++ ((newReads w.nextId iIOThreadCount.toNat).map
                        TcpRead.GetEventLoop).map Event.addEventLoop)
                      sListenIp iListenPort)]
               ++ List.zipWith initCall
                    (initOrder (withNewWorkers self w.nextId iIOThreadCount.toNat)) rets
             nextId := w.nextId + 2 * iIOThreadCount.toNat
             ignored := w.ignored }) ∧
      WorkerResults (initOrder (withNewWorkers self w.nextId iIOThreadCount.toNat)).length
        ret rets := by
  obtain ⟨ret, rets, hrun, hres⟩ := initBoth_spec env
    ((TcpIOThread.Init.createWorkers iIOThreadCount.toNat self w).1.m_vecTcpRead.map
      TcpRead.GetEventLoop)
    ((TcpIOThread.Init.createWorkers iIOThreadCount.toNat self w).1.m_vecTcpWrite.map
      TcpWrite.obj)
    (TcpAcceptor.Listen env (TcpIOThread.Init.createWorkers iIOThreadCount.toNat self w).2
      sListenIp iListenPort).2
  refine ⟨ret, rets, ?_, ?_⟩
  · rw [Init_eq_run, hrun, createWorkers_eq]
    rfl
  · rw [createWorkers_eq] at hres
    exact hres

/-! ## Construction -/

theorem new_some_fields (env : Env) (poNetWork : Nat) (w0 w : World) (self : TcpIOThread)
    (h : TcpIOThread.new env poNetWork w0 = some (self, w)) :
    self = { m_poNetWork := poNetWork
             m_oTcpAcceptor := { m_vecEventLoop := [] }
             m_vecTcpRead := []
             m_vecTcpWrite := []
             m_bIsStarted := false } := by
  unfold TcpIOThread.new at h
  split at h
  · exact absurd h (by simp)
  · split at h
    · exact absurd h (by simp)
    · split at h
      · exact absurd h (by simp)
      · simp only [Option.some.injEq, Prod.mk.injEq] at h
        exact h.1.symm

theorem assertSignalIgn_ok (env : Env) (hdbg : env.NDEBUG = false)
    (hok : ∀ (h : List Event) (s : Nat), env.signalOk h s = true) (signum : Nat) (w : World) :
    assertSignalIgn env signum w
      = some { trace := w.trace ++ [Event.signal signum true]
               nextId := w.nextId
               ignored := fun s => if s = signum then true else w.ignored s } := by
  unfold assertSignalIgn signalIgn
  simp only [hdbg, hok, Bool.false_eq_true, if_false, if_true]

theorem new_ok (env : Env) (hdbg : env.NDEBUG = false)
    (hok : ∀ (h : List Event) (s : Nat), env.signalOk h s = true) (poNetWork : Nat)
    (w : World) :
    TcpIOThread.new env poNetWork w
      = some ({ m_poNetWork := poNetWork
                m_oTcpAcceptor := { m_vecEventLoop := [] }
                m_vecTcpRead := []
                m_vecTcpWrite := []
                m_bIsStarted := false },
              { trace := w.trace ++ sigCalls
                nextId := w.nextId
                ignored := fun s =>
                  if s = SIGCHLD then true else if s = SIGALRM then true
                  else if s = SIGPIPE then true else w.ignored s }) := by
  unfold TcpIOThread.new
  simp only [assertSignalIgn_ok env hdbg hok, sigCalls, List.append_assoc, List.singleton_append,
    List.cons_append, List.nil_append]

theorem zipWith_replicate_right {α β γ : Type} (f : α → β → γ) (l : List α) (b : β) :
    List.zipWith f l (List.replicate l.length b) = l.map (fun a => f a b) := by
  induction l with
  | nil => rfl
  | cons a l ih =>
    simp only [List.length_cons, List.replicate_succ, List.zipWith_cons_cons, List.map_cons, ih]

theorem Init_fresh_spec (env : Env) (poNetWork : Nat) (w0 w : World) (self : TcpIOThread)
    (sListenIp : String) (iListenPort : Int) (iIOThreadCount : Int)
    (hnew : TcpIOThread.new env poNetWork w0 = some (self, w)) :
    ∃ (ret : Int) (rets : List Int) (e1 : TcpIOThread) (w1 : World),
      TcpIOThread.Init env self w sListenIp iListenPort iIOThreadCount = (ret, e1, w1) ∧
      e1.m_vecTcpRead = newReads w.nextId iIOThreadCount.toNat ∧
      e1.m_vecTcpWrite = newWrites w.nextId iIOThreadCount.toNat ∧
      e1.m_oTcpAcceptor.m_vecEventLoop = e1.m_vecTcpRead.map TcpRead.GetEventLoop ∧
      e1.m_bIsStarted = false ∧
      w1.trace = w.trace
        ++ (e1.m_vecTcpRead.map TcpRead.GetEventLoop).map Event.addEventLoop
        ++ [Event.listen sListenIp iListenPort
              (env.listenStatus
                (w.trace ++ (e1.m_vecTcpRead.map TcpRead.GetEventLoop).map Event.addEventLoop)
                sListenIp iListenPort)]
        ++ List.zipWith initCall (initOrder e1) rets ∧
      WorkerResults (initOrder e1).length ret rets := by
  obtain ⟨ret, rets, hI, hres⟩ := Init_spec env self w sListenIp iListenPort iIOThreadCount
  have hself := new_some_fields env poNetWork w0 w self hnew
  refine ⟨ret, rets, _, _, hI, ?_, ?_, ?_, ?_, ?_, hres⟩
  · rw [hself]; simp [withNewWorkers]
  · rw [hself]; simp [withNewWorkers]
  · rw [hself]; simp [withNewWorkers]
  · rw [hself]; simp [withNewWorkers]
  · rw [hself]; simp [withNewWorkers]

theorem AddMessage_engine (env : Env) (self : TcpIOThread) (w : World) (iGroupIdx : Int)
    (sIP : String) (iPort : Int) (sMessage : String) (r : Int × TcpIOThread × World)
    (hr : TcpIOThread.AddMessage env self w iGroupIdx sIP iPort sMessage = some r) :
    r.2.1 = self := by
  unfold TcpIOThread.AddMessage at hr
  split at hr
  · exact absurd hr (by simp)
  · split at hr
    · exact absurd hr (by simp)
    · split at hr
      · exact absurd hr (by simp)
      · simp only [Option.some.injEq] at hr
        rw [← hr]

/-! ## Claims about `TcpIOThread::AddMessage` -/

/-- C1 (amended): for every group index `iGroupIdx >= 0` and every engine with
`writerCount >= 1` writers (`writerCount` representable as `int`), the index
`iGroupIdx mod writerCount` lies in `[0, writerCount)`, it is the index the code
computes, `AddMessage` calls exactly the writer stored at that index (the world
afterwards is the world after that writer's `AddMessage`), returns that
writer's result and leaves the engine untouched; the index depends only on
`iGroupIdx` and the writer count. -/
theorem TcpIOThread.AddMessage_routes_nonneg (env : Env) (self : TcpIOThread) (w : World)
    (iGroupIdx : Int) (sIP : String) (iPort : Int) (sMessage : String)
    (hg : 0 ≤ iGroupIdx) (h1 : 1 ≤ self.m_vecTcpWrite.length)
    (h2 : self.m_vecTcpWrite.length < 2 ^ 31) :
    0 ≤ iGroupIdx % (self.m_vecTcpWrite.length : Int) ∧
    iGroupIdx % (self.m_vecTcpWrite.length : Int) < (self.m_vecTcpWrite.length : Int) ∧
    TcpIOThread.AddMessage.iIndex self iGroupIdx
      = some (iGroupIdx % (self.m_vecTcpWrite.length : Int)) ∧
    (∃ poTcpWrite : TcpWrite,
      self.m_vecTcpWrite[(iGroupIdx % (self.m_vecTcpWrite.length : Int)).toNat]? = some poTcpWrite ∧
      TcpIOThread.AddMessage env self w iGroupIdx sIP iPort sMessage
        = some ((poTcpWrite.AddMessage env w sIP iPort sMessage).1, self,
                (poTcpWrite.AddMessage env w sIP iPort sMessage).2)) ∧
    (∀ other : TcpIOThread, other.m_vecTcpWrite.length = self.m_vecTcpWrite.length →
      TcpIOThread.AddMessage.iIndex other iGroupIdx
        = TcpIOThread.AddMessage.iIndex self iGroupIdx) := by
  have hpos : (0 : Int) < (self.m_vecTcpWrite.length : Int) := by omega
  have hlo : 0 ≤ iGroupIdx % (self.m_vecTcpWrite.length : Int) :=
    Int.emod_nonneg _ (by omega)
  have hhi : iGroupIdx % (self.m_vecTcpWrite.length : Int) < (self.m_vecTcpWrite.length : Int) :=
    Int.emod_lt_of_pos _ hpos
  have hidx := iIndex_of_nonneg self iGroupIdx hg h1 h2
  have hnat : (iGroupIdx % (self.m_vecTcpWrite.length : Int)).toNat < self.m_vecTcpWrite.length :=
    (Int.toNat_lt hlo).mpr hhi
  refine ⟨hlo, hhi, hidx, ⟨self.m_vecTcpWrite[(iGroupIdx % (self.m_vecTcpWrite.length : Int)).toNat], List.getElem?_eq_getElem hnat, ?_⟩, ?_⟩
  · unfold TcpIOThread.AddMessage
    rw [hidx]
    simp only [if_neg (not_lt.mpr hlo), List.getElem?_eq_getElem hnat]
  · intro other hlen
    unfold TcpIOThread.AddMessage.iIndex
    rw [hlen]

/-- C10: for `iGroupIdx >= 0` and a writer count in `[1, 2^31)` the remainder of
line 192 is defined and satisfies `0 <= iIndex < size`, so the lookup is in
bounds and `AddMessage` has defined behaviour; with `size == 0` the remainder is
undefined and no index is in bounds; with `iGroupIdx < 0` not a multiple of
`size` the computed index is negative and the lookup is out of bounds. -/
theorem TcpIOThread.AddMessage_index_in_bounds (env : Env) (self : TcpIOThread) (w : World)
    (iGroupIdx : Int) (sIP : String) (iPort : Int) (sMessage : String) :
    (0 ≤ iGroupIdx → 1 ≤ self.m_vecTcpWrite.length → self.m_vecTcpWrite.length < 2 ^ 31 →
      ∃ iIndex : Int, TcpIOThread.AddMessage.iIndex self iGroupIdx = some iIndex ∧
        0 ≤ iIndex ∧ iIndex < (self.m_vecTcpWrite.length : Int) ∧
        (self.m_vecTcpWrite[iIndex.toNat]?).isSome = true ∧
        (TcpIOThread.AddMessage env self w iGroupIdx sIP iPort sMessage).isSome = true) ∧
    (self.m_vecTcpWrite.length = 0 →
      TcpIOThread.AddMessage.iIndex self iGroupIdx = none ∧
      (∀ i : Nat, self.m_vecTcpWrite[i]? = none) ∧
      TcpIOThread.AddMessage env self w iGroupIdx sIP iPort sMessage = none) ∧
    (iGroupIdx < 0 → 1 ≤ self.m_vecTcpWrite.length → self.m_vecTcpWrite.length < 2 ^ 31 →
      ¬ ((self.m_vecTcpWrite.length : Int) ∣ iGroupIdx) →
      ∃ iIndex : Int, TcpIOThread.AddMessage.iIndex self iGroupIdx = some iIndex ∧
        iIndex < 0 ∧
        TcpIOThread.AddMessage env self w iGroupIdx sIP iPort sMessage = none) := by
  refine ⟨?_, ?_, ?_⟩
  · intro hg h1 h2
    have hpos : (0 : Int) < (self.m_vecTcpWrite.length : Int) := by omega
    have hlo : 0 ≤ iGroupIdx % (self.m_vecTcpWrite.length : Int) :=
      Int.emod_nonneg _ (by omega)
    have hhi : iGroupIdx % (self.m_vecTcpWrite.length : Int) < (self.m_vecTcpWrite.length : Int) :=
      Int.emod_lt_of_pos _ hpos
    have hidx := iIndex_of_nonneg self iGroupIdx hg h1 h2
    have hnat : (iGroupIdx % (self.m_vecTcpWrite.length : Int)).toNat < self.m_vecTcpWrite.length :=
      (Int.toNat_lt hlo).mpr hhi
    refine ⟨_, hidx, hlo, hhi, ?_, ?_⟩
    · rw [List.getElem?_eq_getElem hnat]; rfl
    · unfold TcpIOThread.AddMessage
      rw [hidx]
      simp only [if_neg (not_lt.mpr hlo), List.getElem?_eq_getElem hnat]
      rfl
  · intro h0
    have hidx : TcpIOThread.AddMessage.iIndex self iGroupIdx = none := by
      unfold TcpIOThread.AddMessage.iIndex cRem
      rw [h0]
      rfl
    refine ⟨hidx, ?_, ?_⟩
    · intro i
      have hnil : self.m_vecTcpWrite = [] := List.eq_nil_of_length_eq_zero h0
      rw [hnil]
      rfl
    · unfold TcpIOThread.AddMessage
      rw [hidx]
  · intro hg h1 h2 hdvd
    have hidx := iIndex_of_neg self iGroupIdx h1 h2
    have hle : Int.tmod iGroupIdx (self.m_vecTcpWrite.length : Int) ≤ 0 :=
      tmod_nonpos_of_nonpos _ (le_of_lt hg)
    have hne : Int.tmod iGroupIdx (self.m_vecTcpWrite.length : Int) ≠ 0 :=
      fun h => hdvd (Int.dvd_of_tmod_eq_zero h)
    have hlt : Int.tmod iGroupIdx (self.m_vecTcpWrite.length : Int) < 0 := by omega
    refine ⟨_, hidx, hlt, ?_⟩
    unfold TcpIOThread.AddMessage
    rw [hidx]
    simp only [if_pos hlt]

/-- Witness of C1 (amended): group 7 on four writers goes to index 3. -/
theorem TcpIOThread.AddMessage_routes_nonneg_witness :
    (0 : Int) ≤ 7 ∧ 1 ≤ engine4.m_vecTcpWrite.length ∧ engine4.m_vecTcpWrite.length < 2 ^ 31 ∧
    TcpIOThread.AddMessage.iIndex engine4 7
      = some ((7 : Int) % (engine4.m_vecTcpWrite.length : Int)) :=
  ⟨by decide, by decide, by decide,
   (TcpIOThread.AddMessage_routes_nonneg envOk engine4 world0 7 "10.0.0.1" 5001 "ping"
      (by decide) (by decide) (by decide)).2.2.1⟩

/-- Counterexample to C1 as stated: with four writers and group index `-1`,
`-1 mod 4 = 3`, but the code computes index `-1` and reaches no writer. -/
theorem TcpIOThread.AddMessage_negative_group_counterexample :
    1 ≤ engine4.m_vecTcpWrite.length ∧
    (-1 : Int) % (engine4.m_vecTcpWrite.length : Int) = 3 ∧
    TcpIOThread.AddMessage.iIndex engine4 (-1) = some (-1) ∧
    TcpIOThread.AddMessage envOk engine4 world0 (-1) "10.0.0.1" 5001 "ping" = none :=
  ⟨by decide, by decide, rfl, rfl⟩

/-- Witness of C10: group 7 on four writers is in bounds; any group on an engine
without writers is undefined; group `-1` on four writers is out of bounds. -/
theorem TcpIOThread.AddMessage_index_in_bounds_witness :
    (∃ iIndex : Int, TcpIOThread.AddMessage.iIndex engine4 7 = some iIndex ∧
        0 ≤ iIndex ∧ iIndex < (engine4.m_vecTcpWrite.length : Int) ∧
        (engine4.m_vecTcpWrite[iIndex.toNat]?).isSome = true ∧
        (TcpIOThread.AddMessage envOk engine4 world0 7 "10.0.0.1" 5001 "ping").isSome = true) ∧
    (TcpIOThread.AddMessage.iIndex engine0 7 = none ∧
      (∀ i : Nat, engine0.m_vecTcpWrite[i]? = none) ∧
      TcpIOThread.AddMessage envOk engine0 world0 7 "10.0.0.1" 5001 "ping" = none) ∧
    (∃ iIndex : Int, TcpIOThread.AddMessage.iIndex engine4 (-1) = some iIndex ∧
        iIndex < 0 ∧
        TcpIOThread.AddMessage envOk engine4 world0 (-1) "10.0.0.1" 5001 "ping" = none) :=
  ⟨(TcpIOThread.AddMessage_index_in_bounds envOk engine4 world0 7 "10.0.0.1" 5001 "ping").1
      (by decide) (by decide) (by decide),
   (TcpIOThread.AddMessage_index_in_bounds envOk engine0 world0 7 "10.0.0.1" 5001 "ping").2.1
      (by decide),
   (TcpIOThread.AddMessage_index_in_bounds envOk engine4 world0 (-1) "10.0.0.1" 5001 "ping").2.2
      (by decide) (by decide) (by decide) (by decide)⟩

/-! ## Claims about `TcpIOThread::Start` and `TcpIOThread::Stop` -/

/-- C5: for every engine state, `Start` issues exactly these start actions, in
this order: the acceptor thread, then the thread of every writer in index order,
then the thread of every reader in index order (one action per vector slot);
afterwards the started flag is true and nothing else has changed. -/
theorem TcpIOThread.Start_order (self : TcpIOThread) (w : World) :
    (TcpIOThread.Start self w).2.trace
      = w.trace ++ [Event.threadStart Obj.acceptor]
          ++ (self.m_vecTcpWrite.map TcpWrite.obj).map Event.threadStart
          ++ (self.m_vecTcpRead.map TcpRead.GetEventLoop).map Event.threadStart ∧
    ((TcpIOThread.Start self w).2.trace.drop w.trace.length).length
      = 1 + self.m_vecTcpWrite.length + self.m_vecTcpRead.length ∧
    (TcpIOThread.Start self w).1.m_bIsStarted = true ∧
    (TcpIOThread.Start self w).1 = { self with m_bIsStarted := true } ∧
    (TcpIOThread.Start self w).2.nextId = w.nextId ∧
    (TcpIOThread.Start self w).2.ignored = w.ignored := by
  rw [Start_eq]
  refine ⟨rfl, ?_, rfl, rfl, rfl, rfl⟩
  simp only [List.append_assoc, List.drop_left, List.length_append, List.length_map,
    List.length_singleton]
  omega

/-- C6: on an engine whose started flag is set (which is what `Start` leaves
behind), `Stop` issues exactly these stop actions, in this order: the acceptor,
then for every reader in index order its loop stop and its join, then for every
writer in index order its loop stop and its join (one pair per vector slot); on
an engine whose started flag is clear, `Stop` issues no action at all and leaves
engine and world as they were.  The flag is set by `Start` and by nothing else:
`Init` and `AddMessage` keep it, so a clear flag means `Start` was never called. -/
theorem TcpIOThread.Stop_order (self : TcpIOThread) (w : World) :
    (self.m_bIsStarted = true →
      (TcpIOThread.Stop self w).2.trace
        = w.trace ++ [Event.acceptorStop]
            ++ (self.m_vecTcpRead.map TcpRead.GetEventLoop).flatMap stopCalls
            ++ (self.m_vecTcpWrite.map TcpWrite.obj).flatMap stopCalls ∧
      (TcpIOThread.Stop self w).1 = self) ∧
    (self.m_bIsStarted = false → TcpIOThread.Stop self w = (self, w)) ∧
    (∀ w1 : World,
      (TcpIOThread.Stop (TcpIOThread.Start self w).1 w1).2.trace
        = w1.trace ++ [Event.acceptorStop]
            ++ (self.m_vecTcpRead.map TcpRead.GetEventLoop).flatMap stopCalls
            ++ (self.m_vecTcpWrite.map TcpWrite.obj).flatMap stopCalls) ∧
    (∀ (env : Env) (sListenIp : String) (iListenPort iIOThreadCount : Int),
      (TcpIOThread.Init env self w sListenIp iListenPort iIOThreadCount).2.1.m_bIsStarted
        = self.m_bIsStarted) ∧
    (∀ (env : Env) (iGroupIdx : Int) (sIP : String) (iPort : Int) (sMessage : String) r,
      TcpIOThread.AddMessage env self w iGroupIdx sIP iPort sMessage = some r →
      r.2.1.m_bIsStarted = self.m_bIsStarted) := by
  refine ⟨?_, Stop_not_started self w, ?_, ?_, ?_⟩
  · intro h
    rw [Stop_started self w h]
    exact ⟨rfl, rfl⟩
  · intro w1
    rw [Stop_started _ w1 (by rw [Start_eq])]
    rw [Start_eq]
  · intro env sListenIp iListenPort iIOThreadCount
    obtain ⟨ret, rets, hI, -⟩ := Init_spec env self w sListenIp iListenPort iIOThreadCount
    rw [hI]
    rfl
  · intro env iGroupIdx sIP iPort sMessage r hr
    rw [AddMessage_engine env self w iGroupIdx sIP iPort sMessage r hr]

/-- Witness of C6: a started engine with one reader and one writer, and the
freshly built engine with four of each that was never started. -/
theorem TcpIOThread.Stop_order_witness :
    (TcpIOThread.Stop engine1Started world0).2.trace
      = [Event.acceptorStop,
         Event.loopStop (Obj.tcpRead 0), Event.join (Obj.tcpRead 0),
         Event.loopStop (Obj.tcpWrite 1), Event.join (Obj.tcpWrite 1)] ∧
    TcpIOThread.Stop engine4 world0 = (engine4, world0) :=
  ⟨((TcpIOThread.Stop_order engine1Started world0).1 rfl).1,
   (TcpIOThread.Stop_order engine4 world0).2.1 rfl⟩

/-- Counterexample to C7 as stated: on the engine reached by construction,
`Init(_, _, 1)` and `Start()`, a second `Stop` stops the acceptor and stops and
joins both workers a second time. -/
theorem TcpIOThread.Stop_twice_counterexample :
    startedRun.map (fun p => p.1.m_bIsStarted) = some true ∧
    startedRun.map (fun p => ((TcpIOThread.Stop p.1 p.2).2.trace.drop p.2.trace.length))
      = some [Event.acceptorStop,
              Event.loopStop (Obj.tcpRead 0), Event.join (Obj.tcpRead 0),
              Event.loopStop (Obj.tcpWrite 1), Event.join (Obj.tcpWrite 1)] ∧
    startedRun.map (fun p =>
        ((TcpIOThread.Stop (TcpIOThread.Stop p.1 p.2).1 (TcpIOThread.Stop p.1 p.2).2).2.trace.drop
          p.2.trace.length))
      = some [Event.acceptorStop,
              Event.loopStop (Obj.tcpRead 0), Event.join (Obj.tcpRead 0),
              Event.loopStop (Obj.tcpWrite 1), Event.join (Obj.tcpWrite 1),
              Event.acceptorStop,
              Event.loopStop (Obj.tcpRead 0), Event.join (Obj.tcpRead 0),
              Event.loopStop (Obj.tcpWrite 1), Event.join (Obj.tcpWrite 1)] :=
  ⟨rfl, rfl, rfl⟩

/-- C7 (amended): `Stop` never changes the engine object, and on an engine whose
started flag is clear it is idempotent: calling it twice in a row has the same
result as calling it once, namely no stop or join action and an unchanged world. -/
theorem TcpIOThread.Stop_idempotent_not_started (self : TcpIOThread) (w : World) :
    (TcpIOThread.Stop self w).1 = self ∧
    (self.m_bIsStarted = false →
      TcpIOThread.Stop (TcpIOThread.Stop self w).1 (TcpIOThread.Stop self w).2
        = TcpIOThread.Stop self w ∧
      (TcpIOThread.Stop (TcpIOThread.Stop self w).1 (TcpIOThread.Stop self w).2).2.trace
        = w.trace ∧
      TcpIOThread.Stop self w = (self, w)) := by
  refine ⟨?_, ?_⟩
  · unfold TcpIOThread.Stop
    split <;> rfl
  · intro h
    have h1 := Stop_not_started self w h
    refine ⟨?_, ?_, h1⟩
    · rw [h1]
      exact h1
    · rw [h1]
      exact congrArg (fun p => p.2.trace) h1

/-- Witness of C7 (amended): the never-started engine with four readers and
four writers. -/
theorem TcpIOThread.Stop_idempotent_not_started_witness :
    engine4.m_bIsStarted = false ∧
    TcpIOThread.Stop (TcpIOThread.Stop engine4 world0).1 (TcpIOThread.Stop engine4 world0).2
      = TcpIOThread.Stop engine4 world0 :=
  ⟨rfl, ((TcpIOThread.Stop_idempotent_not_started engine4 world0).2 rfl).1⟩

theorem initOrder_fresh_nodup (base n : Nat) :
    ((newReads base n).map TcpRead.GetEventLoop ++ (newWrites base n).map TcpWrite.obj).Nodup := by
  rw [List.nodup_append]
  refine ⟨?_, ?_, ?_⟩
  · unfold newReads
    rw [List.map_map]
    refine List.Nodup.map ?_ (List.nodup_range n)
    intro i j hij
    simp only [Function.comp, TcpRead.GetEventLoop, Obj.tcpRead.injEq] at hij
    omega
  · unfold newWrites
    rw [List.map_map]
    refine List.Nodup.map ?_ (List.nodup_range n)
    intro i j hij
    simp only [Function.comp, TcpWrite.obj, Obj.tcpWrite.injEq] at hij
    omega
  · intro o h1 h2
    simp only [List.mem_map, TcpRead.GetEventLoop, TcpWrite.obj] at h1 h2
    obtain ⟨r, _, hr⟩ := h1
    obtain ⟨x, _, hx⟩ := h2
    rw [← hr] at hx
    exact Obj.noConfusion hx

/-! ## Claims about `TcpIOThread::Init` -/

/-- C2: for every `N >= 0`, when `Init(ip, port, N)` on a freshly constructed
engine returns 0, the engine holds exactly `N` readers and exactly `N` writers
(pairwise distinct objects), the acceptor holds exactly the `N` event loops of
the readers in reader order (registered by `N` `AddEventLoop` calls, then one
`Listen`), and after that every reader in index order and then every writer in
index order had its own `Init` called, each returning 0. -/
theorem TcpIOThread.Init_success (env : Env) (poNetWork : Nat) (w0 w : World)
    (self : TcpIOThread) (sListenIp : String) (iListenPort : Int) (iIOThreadCount : Int)
    (e1 : TcpIOThread) (w1 : World)
    (hN : 0 ≤ iIOThreadCount)
    (hnew : TcpIOThread.new env poNetWork w0 = some (self, w))
    (hinit : TcpIOThread.Init env self w sListenIp iListenPort iIOThreadCount = (0, e1, w1)) :
    (e1.m_vecTcpRead.length : Int) = iIOThreadCount ∧
    (e1.m_vecTcpWrite.length : Int) = iIOThreadCount ∧
    (initOrder e1).Nodup ∧
    e1.m_oTcpAcceptor.m_vecEventLoop = e1.m_vecTcpRead.map TcpRead.GetEventLoop ∧
    (e1.m_oTcpAcceptor.m_vecEventLoop.length : Int) = iIOThreadCount ∧
    w1.trace = w.trace
      ++ (e1.m_vecTcpRead.map TcpRead.GetEventLoop).map Event.addEventLoop
      ++ [Event.listen sListenIp iListenPort
            (env.listenStatus
              (w.trace ++ (e1.m_vecTcpRead.map TcpRead.GetEventLoop).map Event.addEventLoop)
              sListenIp iListenPort)]
      ++ (e1.m_vecTcpRead.map TcpRead.GetEventLoop).map (fun o => initCall o 0)
      ++ (e1.m_vecTcpWrite.map TcpWrite.obj).map (fun o => initCall o 0) := by
  obtain ⟨ret, rets, e2, w2, hI, hr, hw, hacc, -, htr, hres⟩ :=
    Init_fresh_spec env poNetWork w0 w self sListenIp iListenPort iIOThreadCount hnew
  rw [hinit] at hI
  simp only [Prod.mk.injEq] at hI
  obtain ⟨hret, he, hw12⟩ := hI
  subst he hw12 hret
  have hrets : rets = List.replicate (initOrder e1).length 0 := by
    rcases hres with ⟨_, h⟩ | ⟨h, _⟩
    · exact h
    · exact absurd rfl h
  have hlen : ((iIOThreadCount.toNat : Nat) : Int) = iIOThreadCount := Int.toNat_of_nonneg hN
  refine ⟨?_, ?_, ?_, hacc, ?_, ?_⟩
  · rw [hr, newReads_length, hlen]
  · rw [hw, newWrites_length, hlen]
  · unfold initOrder
    rw [hr, hw]
    exact initOrder_fresh_nodup _ _
  · rw [hacc, List.length_map, hr, newReads_length, hlen]
  · rw [htr, hrets, zipWith_replicate_right]
    simp only [initOrder, List.map_append, List.append_assoc]

/-- Witness of C2: `Init("0.0.0.0", 5000, 4)` on the engine constructed in
`world0`, every collaborator succeeding. -/
theorem TcpIOThread.Init_success_witness :
    (0 : Int) ≤ 4 ∧
    TcpIOThread.new envOk 0 world0 = some (engine0, world1) ∧
    (TcpIOThread.Init envOk engine0 world1 "0.0.0.0" 5000 4).1 = 0 ∧
    ((TcpIOThread.Init envOk engine0 world1 "0.0.0.0" 5000 4).2.1.m_vecTcpRead.length : Int) = 4 ∧
    ((TcpIOThread.Init envOk engine0 world1 "0.0.0.0" 5000 4).2.1.m_vecTcpWrite.length : Int)
      = 4 :=
  ⟨by decide, rfl, rfl,
   (TcpIOThread.Init_success envOk 0 world0 world1 engine0 "0.0.0.0" 5000 4 _ _
      (by decide) rfl rfl).1,
   (TcpIOThread.Init_success envOk 0 world0 world1 engine0 "0.0.0.0" 5000 4 _ _
      (by decide) rfl rfl).2.1⟩

/-- C4: on a freshly constructed engine, `Init(ip, port, N)` with `N >= 0`
returns; it visits the workers in the order reader 0 .. N-1, writer 0 .. N-1 and
the worker `Init` calls it makes are exactly a run over an initial segment of
that order: either all `2N` calls returned 0 and `Init` returns 0, or the run
stops with the first call that returned a non-zero code, `Init` returns exactly
that code and no later worker is visited.  In both cases all `N` readers and `N`
writers stay in the engine and the started flag is false.  `Init` returns 0
exactly when every worker `Init` returned 0. -/
theorem TcpIOThread.Init_stops_at_first_failure (env : Env) (poNetWork : Nat) (w0 w : World)
    (self : TcpIOThread) (sListenIp : String) (iListenPort : Int) (iIOThreadCount : Int)
    (hN : 0 ≤ iIOThreadCount)
    (hnew : TcpIOThread.new env poNetWork w0 = some (self, w)) :
    ∃ (ret : Int) (rets : List Int) (e1 : TcpIOThread) (w1 : World),
      TcpIOThread.Init env self w sListenIp iListenPort iIOThreadCount = (ret, e1, w1) ∧
      (e1.m_vecTcpRead.length : Int) = iIOThreadCount ∧
      (e1.m_vecTcpWrite.length : Int) = iIOThreadCount ∧
      e1.m_bIsStarted = false ∧
      w1.trace = w.trace
        ++ (e1.m_vecTcpRead.map TcpRead.GetEventLoop).map Event.addEventLoop
        ++ [Event.listen sListenIp iListenPort
              (env.listenStatus
                (w.trace ++ (e1.m_vecTcpRead.map TcpRead.GetEventLoop).map Event.addEventLoop)
                sListenIp iListenPort)]
        ++ List.zipWith initCall
            (e1.m_vecTcpRead.map TcpRead.GetEventLoop ++ e1.m_vecTcpWrite.map TcpWrite.obj)
            rets ∧
      ((ret = 0 ∧
          rets = List.replicate (e1.m_vecTcpRead.length + e1.m_vecTcpWrite.length) 0) ∨
       (ret ≠ 0 ∧ ∃ k, k < e1.m_vecTcpRead.length + e1.m_vecTcpWrite.length ∧
          rets = List.replicate k 0 ++ [ret])) ∧
      (ret = 0 ↔ ∀ c ∈ rets, c = 0) := by
  obtain ⟨ret, rets, e1, w1, hI, hr, hw, -, hst, htr, hres⟩ :=
    Init_fresh_spec env poNetWork w0 w self sListenIp iListenPort iIOThreadCount hnew
  have hlen : ((iIOThreadCount.toNat : Nat) : Int) = iIOThreadCount := Int.toNat_of_nonneg hN
  have hol : (initOrder e1).length = e1.m_vecTcpRead.length + e1.m_vecTcpWrite.length := by
    simp [initOrder]
  unfold WorkerResults at hres
  rw [hol] at hres
  refine ⟨ret, rets, e1, w1, hI, ?_, ?_, hst, htr, hres, ?_⟩
  · rw [hr, newReads_length, hlen]
  · rw [hw, newWrites_length, hlen]
  · rcases hres with ⟨h0, hrets⟩ | ⟨hne, k, _, hrets⟩
    · refine ⟨fun _ c hc => ?_, fun _ => h0⟩
      rw [hrets] at hc
      exact (List.mem_replicate.mp hc).2
    · refine ⟨fun h => absurd h hne, fun h => ?_⟩
      exact h ret (by rw [hrets]; simp)

/-- Witness of C4: two readers and two writers, the first writer's event loop
fails with `-7`: `Init` returns `-7` after three worker `Init` calls and the
second writer is never visited. -/
theorem TcpIOThread.Init_stops_at_first_failure_witness :
    (0 : Int) ≤ 2 ∧
    TcpIOThread.new envWriteFails 0 world0 = some (engine0, world1) ∧
    (TcpIOThread.Init envWriteFails engine0 world1 "0.0.0.0" 5000 2).1 = -7 ∧
    (TcpIOThread.Init envWriteFails engine0 world1 "0.0.0.0" 5000 2).2.2.trace.drop
        world1.trace.length
      = [Event.addEventLoop (Obj.tcpRead 0), Event.addEventLoop (Obj.tcpRead 2),
         Event.listen "0.0.0.0" 5000 0,
         Event.loopInit (Obj.tcpRead 0) 20480 0, Event.loopInit (Obj.tcpRead 2) 20480 0,
         Event.loopInit (Obj.tcpWrite 1) 20480 (-7)] ∧
    (∃ (ret : Int) (e1 : TcpIOThread) (w1 : World),
      TcpIOThread.Init envWriteFails engine0 world1 "0.0.0.0" 5000 2 = (ret, e1, w1) ∧
      (e1.m_vecTcpRead.length : Int) = 2 ∧ (e1.m_vecTcpWrite.length : Int) = 2 ∧
      e1.m_bIsStarted = false) := by
  refine ⟨by decide, rfl, rfl, rfl, ?_⟩
  obtain ⟨ret, _, e1, w1, h, hr, hw, hs, _⟩ :=
    TcpIOThread.Init_stops_at_first_failure envWriteFails 0 world0 world1 engine0
      "0.0.0.0" 5000 2 (by decide) rfl
  exact ⟨ret, e1, w1, h, hr, hw, hs⟩

/-! ## Claims about construction and about the worker sequences -/

theorem constructEngines_ok (env : Env) (hdbg : env.NDEBUG = false)
    (hok : ∀ (h : List Event) (s : Nat), env.signalOk h s = true) (n : Nat) (w : World) :
    ∃ (es : List TcpIOThread) (w1 : World),
      constructEngines env n w = some (es, w1) ∧ es.length = n ∧
      w1.trace = w.trace ++ (List.replicate n sigCalls).flatten ∧
      (0 < n → w1.ignored SIGPIPE = true ∧ w1.ignored SIGALRM = true ∧
        w1.ignored SIGCHLD = true) := by
  induction n generalizing w with
  | zero => exact ⟨[], w, rfl, rfl, by simp, fun h => absurd h (by decide)⟩
  | succ n ih =>
    obtain ⟨es, w2, hes, hlen, htr, hign⟩ := ih
      { trace := w.trace ++ sigCalls
        nextId := w.nextId
        ignored := fun s =>
          if s = SIGCHLD then true else if s = SIGALRM then true
          else if s = SIGPIPE then true else w.ignored s }
    refine ⟨{ m_poNetWork := n
              m_oTcpAcceptor := { m_vecEventLoop := [] }
              m_vecTcpRead := []
              m_vecTcpWrite := []
              m_bIsStarted := false } :: es, w2, ?_, by simp [hlen], ?_, ?_⟩
    · rw [constructEngines, new_ok env hdbg hok]
      simp only [hes]
    · rw [htr]
      simp only [List.replicate_succ, List.flatten_cons, List.append_assoc]
    · intro _
      rcases Nat.eq_zero_or_pos n with h0 | hpos
      · subst h0
        simp only [constructEngines, Option.some.injEq, Prod.mk.injEq] at hes
        rw [← hes.2]
        exact ⟨rfl, rfl, rfl⟩
      · exact hign hpos

theorem count_flatten_replicate_sigCalls (n : Nat) (e : Event) (he : e ∈ sigCalls) :
    (List.replicate n sigCalls).flatten.count e = n := by
  induction n with
  | zero => rfl
  | succ n ih =>
    rw [List.replicate_succ, List.flatten_cons, List.count_append, ih]
    simp only [sigCalls, List.mem_cons, List.mem_singleton, List.not_mem_nil, or_false] at he
    rcases he with h | h | h <;> subst h <;> simp [sigCalls, SIGPIPE, SIGALRM, SIGCHLD] <;> omega

/-- Counterexample to C8 as stated: constructing two engines in one process
sets each of the three dispositions twice. -/
theorem TcpIOThread.new_twice_counterexample :
    (constructEngines envOk 2 world0).map (fun p => p.2.trace)
      = some [Event.signal SIGPIPE true, Event.signal SIGALRM true, Event.signal SIGCHLD true,
              Event.signal SIGPIPE true, Event.signal SIGALRM true, Event.signal SIGCHLD true] ∧
    (constructEngines envOk 2 world0).map
        (fun p => p.2.trace.count (Event.signal SIGPIPE true)) = some 2 :=
  ⟨rfl, rfl⟩

/-- C8 (amended): in a build with assertions compiled in and with `signal`
succeeding, every construction of a `TcpIOThread` sets the dispositions of
SIGPIPE, SIGALRM and SIGCHLD to "ignore", each exactly once per construction and
in this order; constructing `n` engines in one process therefore sets each of
the three dispositions exactly `n` times, and they are "ignore" afterwards. -/
theorem TcpIOThread.new_sets_signals_every_time (env : Env) (hdbg : env.NDEBUG = false)
    (hok : ∀ (h : List Event) (s : Nat), env.signalOk h s = true) (poNetWork n : Nat)
    (w : World) :
    (∃ (e : TcpIOThread) (w1 : World),
      TcpIOThread.new env poNetWork w = some (e, w1) ∧
      w1.trace = w.trace ++ sigCalls ∧
      w1.ignored SIGPIPE = true ∧ w1.ignored SIGALRM = true ∧ w1.ignored SIGCHLD = true ∧
      e.m_bIsStarted = false ∧ e.m_vecTcpRead = [] ∧ e.m_vecTcpWrite = []) ∧
    (∃ (es : List TcpIOThread) (w1 : World),
      constructEngines env n w = some (es, w1) ∧ es.length = n ∧
      w1.trace = w.trace ++ (List.replicate n sigCalls).flatten ∧
      (w1.trace.drop w.trace.length).count (Event.signal SIGPIPE true) = n ∧
      (w1.trace.drop w.trace.length).count (Event.signal SIGALRM true) = n ∧
      (w1.trace.drop w.trace.length).count (Event.signal SIGCHLD true) = n ∧
      (0 < n → w1.ignored SIGPIPE = true ∧ w1.ignored SIGALRM = true ∧
        w1.ignored SIGCHLD = true)) := by
  refine ⟨⟨_, _, new_ok env hdbg hok poNetWork w, rfl, rfl, rfl, rfl, rfl, rfl, rfl⟩, ?_⟩
  obtain ⟨es, w1, hes, hlen, htr, hign⟩ := constructEngines_ok env hdbg hok n w
  refine ⟨es, w1, hes, hlen, htr, ?_, ?_, ?_, hign⟩
  · rw [htr, List.drop_left]
    exact count_flatten_replicate_sigCalls n _ (by simp [sigCalls])
  · rw [htr, List.drop_left]
    exact count_flatten_replicate_sigCalls n _ (by simp [sigCalls])
  · rw [htr, List.drop_left]
    exact count_flatten_replicate_sigCalls n _ (by simp [sigCalls])

/-- Witness of C8 (amended): three constructions in `world0`. -/
theorem TcpIOThread.new_sets_signals_every_time_witness :
    envOk.NDEBUG = false ∧ (∀ (h : List Event) (s : Nat), envOk.signalOk h s = true) ∧
    (∃ (es : List TcpIOThread) (w1 : World),
      constructEngines envOk 3 world0 = some (es, w1) ∧ es.length = 3 ∧
      (w1.trace.drop world0.trace.length).count (Event.signal SIGPIPE true) = 3) := by
  refine ⟨rfl, fun _ _ => rfl, ?_⟩
  obtain ⟨es, w1, h1, h2, _, h3, _⟩ :=
    (TcpIOThread.new_sets_signals_every_time envOk rfl (fun _ _ => rfl) 0 3 world0).2
  exact ⟨es, w1, h1, h2, h3⟩

/-- Counterexample to C9 as stated: after `Init(_, _, 1)` has returned on a fresh
engine, a further `Init(_, _, 1)` changes both sequences from one worker to two. -/
theorem TcpIOThread.Init_twice_counterexample :
    (TcpIOThread.Init envOk engine0 world1 "0.0.0.0" 5000 1).2.1.m_vecTcpRead
      = [{ id := 0 }] ∧
    (TcpIOThread.Init envOk engine0 world1 "0.0.0.0" 5000 1).2.1.m_vecTcpWrite
      = [{ id := 1 }] ∧
    (TcpIOThread.Init envOk
        (TcpIOThread.Init envOk engine0 world1 "0.0.0.0" 5000 1).2.1
        (TcpIOThread.Init envOk engine0 world1 "0.0.0.0" 5000 1).2.2
        "0.0.0.0" 5000 1).2.1.m_vecTcpRead
      = [{ id := 0 }, { id := 2 }] ∧
    (TcpIOThread.Init envOk
        (TcpIOThread.Init envOk engine0 world1 "0.0.0.0" 5000 1).2.1
        (TcpIOThread.Init envOk engine0 world1 "0.0.0.0" 5000 1).2.2
        "0.0.0.0" 5000 1).2.1.m_vecTcpWrite
      = [{ id := 1 }, { id := 3 }] :=
  ⟨rfl, rfl, rfl, rfl⟩

/-- C9 (amended): `Start`, `Stop` and `AddMessage` leave the reader sequence and
the writer sequence (hence the writer count of the sharding rule) unchanged; a
further `Init(_, _, N)` keeps the existing workers in place and appends
`max(N, 0)` new readers and as many new writers, so it leaves the sequences
unchanged exactly when `N <= 0`. -/
theorem TcpIOThread.worker_sequences_frame (env : Env) (self : TcpIOThread) (w : World)
    (iGroupIdx : Int) (sIP : String) (iPort : Int) (sMessage : String)
    (sListenIp : String) (iListenPort : Int) (iIOThreadCount : Int) :
    ((TcpIOThread.Start self w).1.m_vecTcpRead = self.m_vecTcpRead ∧
     (TcpIOThread.Start self w).1.m_vecTcpWrite = self.m_vecTcpWrite) ∧
    ((TcpIOThread.Stop self w).1.m_vecTcpRead = self.m_vecTcpRead ∧
     (TcpIOThread.Stop self w).1.m_vecTcpWrite = self.m_vecTcpWrite) ∧
    (∀ r, TcpIOThread.AddMessage env self w iGroupIdx sIP iPort sMessage = some r →
      r.2.1.m_vecTcpRead = self.m_vecTcpRead ∧ r.2.1.m_vecTcpWrite = self.m_vecTcpWrite) ∧
    ((TcpIOThread.Init env self w sListenIp iListenPort iIOThreadCount).2.1.m_vecTcpRead
        = self.m_vecTcpRead ++ newReads w.nextId iIOThreadCount.toNat ∧
     (TcpIOThread.Init env self w sListenIp iListenPort iIOThreadCount).2.1.m_vecTcpWrite
        = self.m_vecTcpWrite ++ newWrites w.nextId iIOThreadCount.toNat ∧
     (newReads w.nextId iIOThreadCount.toNat).length = iIOThreadCount.toNat ∧
     (newWrites w.nextId iIOThreadCount.toNat).length = iIOThreadCount.toNat) ∧
    (iIOThreadCount ≤ 0 ↔
      ((TcpIOThread.Init env self w sListenIp iListenPort iIOThreadCount).2.1.m_vecTcpRead
          = self.m_vecTcpRead ∧
       (TcpIOThread.Init env self w sListenIp iListenPort iIOThreadCount).2.1.m_vecTcpWrite
          = self.m_vecTcpWrite)) := by
  obtain ⟨ret, rets, hI, -⟩ := Init_spec env self w sListenIp iListenPort iIOThreadCount
  have hstop : (TcpIOThread.Stop self w).1 = self := by
    unfold TcpIOThread.Stop
    split <;> rfl
  refine ⟨by rw [Start_eq]; exact ⟨rfl, rfl⟩, by rw [hstop]; exact ⟨rfl, rfl⟩, ?_, ?_, ?_⟩
  · intro r hr
    rw [AddMessage_engine env self w iGroupIdx sIP iPort sMessage r hr]
    exact ⟨rfl, rfl⟩
  · rw [hI]
    exact ⟨rfl, rfl, newReads_length _ _, newWrites_length _ _⟩
  · rw [hI]
    simp only [withNewWorkers]
    constructor
    · intro hle
      have h0 : iIOThreadCount.toNat = 0 := by omega
      rw [h0]
      simp [newReads, newWrites]
    · rintro ⟨h1, -⟩
      have h2 : newReads w.nextId iIOThreadCount.toNat = [] := by
        simpa using h1
      have h3 := newReads_length w.nextId iIOThreadCount.toNat
      rw [h2] at h3
      simp only [List.length_nil] at h3
      omega

/-- Witness of C9 (amended): on the engine with four workers of each kind,
`AddMessage` for group 7 succeeds and keeps the sequences, and `Init` with a
count of 0 keeps them too. -/
theorem TcpIOThread.worker_sequences_frame_witness :
    (∃ r, TcpIOThread.AddMessage envOk engine4 world0 7 "10.0.0.1" 5001 "ping" = some r ∧
      r.2.1.m_vecTcpRead = engine4.m_vecTcpRead ∧
      r.2.1.m_vecTcpWrite = engine4.m_vecTcpWrite) ∧
    (TcpIOThread.Init envOk engine4 world0 "0.0.0.0" 5000 0).2.1.m_vecTcpRead
      = engine4.m_vecTcpRead :=
  ⟨⟨_, rfl,
    (TcpIOThread.worker_sequences_frame envOk engine4 world0 7 "10.0.0.1" 5001 "ping"
      "0.0.0.0" 5000 0).2.2.1 _ rfl⟩,
   ((TcpIOThread.worker_sequences_frame envOk engine4 world0 7 "10.0.0.1" 5001 "ping"
      "0.0.0.0" 5000 0).2.2.2.2.mp (by decide)).1⟩

end phxpaxos
